import Mathlib

/-!
Verification of patrickward/go-heroicons.

The repository has two pieces:
* `heroicons.go` — the runtime library (`Initialize`, `RenderIcon`);
* `generator.go` (the unnamed source file) — the build-time generator
  (`Generator.Generate`, `getIconPath`, `copyIcon`, `generateProvider`)
  and the text template `providerTemplate` of the generated provider
  (`getIcon`, `getMissingIcon`, the generated `RenderIcon`).

Strings are modelled by Lean `String` (Go strings are byte sequences;
all literals involved are ASCII, so the character-level model agrees with
the byte-level one).  File-system effects are modelled by an explicit
environment `FSEnv` recording which paths are readable and which
operations succeed, plus an association list of written files.
`filepath.Join` is modelled for clean path segments (no `.`/`..`
normalisation is needed by any path the code builds): joining skips an
empty left component and otherwise inserts `/`.
-/

/-! ### Go `strings` package primitives (character-list level) -/

/-- `strings.Contains`: does `pat` occur as a contiguous substring of `s`?
Matches Go semantics, including `Contains(s, "") = true`. -/
def listContains (s pat : List Char) : Bool :=
  match s with
  | [] => pat.isEmpty
  | _ :: cs => pat.isPrefixOf s || listContains cs pat

/-- `strings.Replace(s, pat, repl, 1)`: replace the first (leftmost)
occurrence of `pat` in `s` by `repl`; if `pat` does not occur, return `s`
unchanged.  For empty `pat`, Go inserts `repl` before the first
character, which this definition reproduces. -/
def listReplace1 (s pat repl : List Char) : List Char :=
  match s with
  | [] => if pat.isEmpty then repl else []
  | c :: cs =>
    if pat.isPrefixOf s then repl ++ s.drop pat.length
    else c :: listReplace1 cs pat repl

/-- Specification-side view of the first occurrence of `pat` in `s`:
`some (pre, post)` with `s = pre ++ pat ++ post` at the leftmost
occurrence, `none` when `pat` does not occur. -/
def splitFirst (s pat : List Char) : Option (List Char × List Char) :=
  match s with
  | [] => if pat.isEmpty then some ([], []) else none
  | c :: cs =>
    if pat.isPrefixOf s then some ([], s.drop pat.length)
    else (splitFirst cs pat).map (fun pr => (c :: pr.1, pr.2))

/-- Go `strings.Contains` lifted to `String`. -/
def goContains (s substr : String) : Bool :=
  listContains s.data substr.data

/-- Go `strings.Replace(s, old, new, 1)` lifted to `String`. -/
def goReplace1 (s old new : String) : String :=
  ⟨listReplace1 s.data old.data new.data⟩

/-! ### Class injection (shared text of both `RenderIcon`s)

```go
if class != "" {
    if strings.Contains(svg, "class=\"") {
        svg = strings.Replace(svg, "class=\"", fmt.Sprintf("class=\"%s ", class), 1)
    } else {
        svg = strings.Replace(svg, "<svg ", fmt.Sprintf("<svg class=\"%s\" ", class), 1)
    }
}
```
-/

/-- The class-injection step of `RenderIcon` (identical text in
`heroicons.go` and in the generated provider). -/
def injectClass (svg cls : String) : String :=
  if cls = "" then svg
  else if goContains svg "class=\"" then
    goReplace1 svg "class=\"" ("class=\"" ++ cls ++ " ")
  else
    goReplace1 svg "<svg " ("<svg class=\"" ++ cls ++ "\" ")

/-! ### Runtime library (`heroicons.go`)

Go's `(T, error)` return pairs are modelled as `T × Option String`
(`none` = nil error).  The package-global `provider` variable is
modelled by passing its current value explicitly; `Initialize p` yields
the new value of that global. -/

/-- `IconType` is a Go string type. -/
abbrev IconType := String

def IconOutline : IconType := "outline"

def IconSolid : IconType := "solid"

def IconMini : IconType := "mini"

def IconMicro : IconType := "micro"

/-- An `IconProvider`: anything that can answer `GetIcon`. -/
structure IconProvider where
  GetIcon : String → IconType → String × Option String

/-- `Initialize(p)` sets the package-global `provider` to `p`
(`none` models a nil provider). -/
def Initialize (p : Option IconProvider) : Option IconProvider := p

/-- The library `RenderIcon` of `heroicons.go`, with the current value of
the global `provider` passed explicitly. -/
def RenderIcon (provider : Option IconProvider) (name : String)
    (iconType : IconType) (cls : String) : String × Option String :=
  match provider with
  | none => ("", some "heroicons package not initialized with an IconProvider")
  | some p =>
    match p.GetIcon name iconType with
    | (_, some err) => ("", some err)
    | (svg, none) => (injectClass svg cls, none)

/-! ### Generated provider (runtime semantics of `providerTemplate`)

The generated file bakes in a lookup table `iconPaths`, a flag
`FailOnError`, and an embedded file system `iconFS`.  These are gathered
in `ProviderEnv`; `embed.FS.ReadFile` is modelled by `readFile`, an
`Except` carrying the error message of a failed read. -/

/-- Association-list lookup (Go map read `m[k]`). -/
def mapLookup (m : List (String × String)) (k : String) : Option String :=
  match m with
  | [] => none
  | (k', v) :: rest => if k' = k then some v else mapLookup rest k

/-- Association-list store (Go map write `m[k] = v`): overwrites the
entry for `k` when present, otherwise appends one. -/
def mapInsert (m : List (String × String)) (k v : String) :
    List (String × String) :=
  match m with
  | [] => [(k, v)]
  | (k', v') :: rest =>
    if k' = k then (k, v) :: rest else (k', v') :: mapInsert rest k v

/-- The baked-in state of one generated provider package. -/
structure ProviderEnv where
  iconPaths : List (String × String)
  readFile : String → Except String String
  FailOnError : Bool

/-- `getMissingIcon` of the generated provider: read the embedded
fallback, substituting `""` if the read fails. -/
def getMissingIcon (p : ProviderEnv) : String :=
  match p.readFile "icons/missing.svg" with
  | .error _ => ""
  | .ok content => content

/-- `getIcon` of the generated provider. -/
def getIcon (p : ProviderEnv) (name : String) (iconType : IconType) :
    String × Option String :=
  let key := iconType ++ "/" ++ name
  match mapLookup p.iconPaths key with
  | none =>
    if p.FailOnError then ("", some ("icon not found: " ++ key))
    else (getMissingIcon p, none)
  | some filename =>
    let filename2 := "icons/" ++ filename
    match p.readFile filename2 with
    | .error e =>
      if p.FailOnError then
        ("", some ("failed to read icon " ++ filename2 ++ ": " ++ e))
      else (getMissingIcon p, none)
    | .ok content => (content, none)

/-- The generated provider's `RenderIcon` (same injection step as the
library one, on top of `getIcon`). -/
def provRenderIcon (p : ProviderEnv) (name : String) (iconType : IconType)
    (cls : String) : String × Option String :=
  match getIcon p name iconType with
  | (_, some err) => ("", some err)
  | (svg, none) => (injectClass svg cls, none)

/-! ### Build-time generator (the unnamed source file) -/

/-- `DefaultMissingIconSVG` — the default fallback markup. -/
def DefaultMissingIconSVG : String :=
  "<svg xmlns=\"http://www.w3.org/2000/svg\" viewBox=\"0 0 24 24\" fill=\"#fb2c36\"><path d=\"M17.5 2.5L23 12L17.5 21.5H6.5L1 12L6.5 2.5H17.5ZM11 15V17H13V15H11ZM11 7V13H13V7H11Z\"></path></svg>"

/-- `filepath.Join` for two components, modelled for clean path segments:
an empty left component is skipped, otherwise the parts are joined
with `/`. -/
def joinPath (a b : String) : String :=
  if a = "" then b else a ++ "/" ++ b

/-- `IconSet` — one requested icon.  The Go field `Type` is named `Ty`
here (`Type` is reserved in Lean). -/
structure IconSet where
  Name : String
  Ty : IconType
  deriving DecidableEq

/-- The `Generator` configuration struct. -/
structure Generator where
  HeroiconsPath : String
  OutputPath : String
  PackageName : String
  Icons : List IconSet
  FailOnError : Bool
  MissingIconSVG : String
  deriving DecidableEq

/-- The file-system environment of one `Generate` run: the readable
contents of source files, and which directory creations, file writes,
file creations and stream copies succeed. -/
structure FSEnv where
  files : String → Option String
  mkdirOk : String → Bool
  writeOk : String → Bool
  createOk : String → Bool
  copyOk : String → String → Bool

/-- `Generator.getIconPath`: the pure path-resolution rule.  A variant
outside the four known ones leaves `dir` empty (Go `switch` without
default), and `filepath.Join` skips the empty component. -/
def getIconPath (g : Generator) (icon : IconSet) : String :=
  let dir : String :=
    if icon.Ty = IconOutline then "24/outline"
    else if icon.Ty = IconSolid then "24/solid"
    else if icon.Ty = IconMini then "20/solid"
    else if icon.Ty = IconMicro then "16/solid"
    else ""
  joinPath g.HeroiconsPath (joinPath "optimized" (joinPath dir (icon.Name ++ ".svg")))

/-- The composite key `fmt.Sprintf("%s/%s", icon.Ty, icon.Name)`. -/
def iconKey (icon : IconSet) : String :=
  icon.Ty ++ "/" ++ icon.Name

/-- The destination filename `fmt.Sprintf("%s_%s.svg", icon.Ty, icon.Name)`. -/
def iconFilename (icon : IconSet) : String :=
  icon.Ty ++ "_" ++ icon.Name ++ ".svg"

/-- `Generator.copyIcon`: open `src`, create `dest`, `io.Copy`.  Result is
`(error?, files written)`.  A failed open or create writes nothing; a
failed `io.Copy` leaves the created (truncated) destination, modelled as
empty content (partial writes are not modelled — no claim depends on the
content of a failed copy's destination). -/
def copyIcon (env : FSEnv) (src dest : String) :
    Option String × List (String × String) :=
  match env.files src with
  | none => (some ("open " ++ src ++ ": no such file or directory"), [])
  | some content =>
    if env.createOk dest = false then
      (some ("create " ++ dest ++ ": operation failed"), [])
    else if env.copyOk src dest = false then
      (some "io copy failed", [(dest, "")])
    else (none, [(dest, content)])

/-- The in-flight state of one `Generate` run: the `missingIcons` list,
the `iconPaths` table, and the files written so far (an association
list with overwrite semantics, latest write wins). -/
structure GenState where
  missing : List String
  iconPaths : List (String × String)
  written : List (String × String)
  deriving DecidableEq

/-- Record a batch of file writes, later writes overwriting earlier ones. -/
def writesInsert (m : List (String × String)) (ws : List (String × String)) :
    List (String × String) :=
  ws.foldl (fun acc kv => mapInsert acc kv.1 kv.2) m

/-- One iteration of the `for _, icon := range g.Icons` loop in
`Generate`: copy, then on failure append the key to `missingIcons` and
continue, on success register `key ↦ filename` in `iconPaths`. -/
def processIcon (env : FSEnv) (g : Generator) (iconsPath : String)
    (st : GenState) (icon : IconSet) : GenState :=
  let srcPath := getIconPath g icon
  let destPath := joinPath iconsPath (iconFilename icon)
  match copyIcon env srcPath destPath with
  | (some _, ws) =>
    { st with missing := st.missing ++ [iconKey icon],
              written := writesInsert st.written ws }
  | (none, ws) =>
    { missing := st.missing,
      iconPaths := mapInsert st.iconPaths (iconKey icon) (iconFilename icon),
      written := writesInsert st.written ws }

/-! ### The provider template's output text

`text/template` iterates a map in sorted key order; the sort is modelled
by insertion sort over the character-level order.  `{{-` trimming makes
each table entry render as `\n\t"key": "path",`. -/

/-- Character-list comparison (Go byte-wise string order; all involved
strings are ASCII, where codepoint order equals byte order). -/
def charListLe : List Char → List Char → Bool
  | [], _ => true
  | _ :: _, [] => false
  | a :: as, b :: bs => if a = b then charListLe as bs else decide (a < b)

/-- Insert one entry into a key-sorted association list. -/
def insertSorted (kv : String × String) :
    List (String × String) → List (String × String)
  | [] => [kv]
  | kv' :: rest =>
    if charListLe kv.1.data kv'.1.data then kv :: kv' :: rest
    else kv' :: insertSorted kv rest

/-- Sort an association list by key (the order `text/template` uses to
range over a map). -/
def sortByKey (m : List (String × String)) : List (String × String) :=
  m.foldr insertSorted []

/-- `providerTemplate` text before the `FailOnError` conditional. -/
def providerHeader : String :=
  "// Code generated by heroicons generator; DO NOT EDIT.\npackage icons\n\nimport (\n\t\"fmt\"\n\t\"embed\"\n\t\"html/template\"\n\t\"strings\"\n\n\t\"github.com/patrickward/go-heroicons\"\n)\n\n//go:embed icons/*.svg\nvar iconFS embed.FS\n\n// FailOnError determines whether to use a generic missing icon when an icon is not found\nvar FailOnError = "

/-- `providerTemplate` text between the conditional and the table
entries (the newline after `string\x7b` is trimmed by `\x7b\x7b-`). -/
def providerMid : String :=
  " \n\n// IconType represents the different types of Heroicons\ntype IconType string\n\nconst (\n\tIconOutline IconType = \"outline\" // 24px outline icons\n\tIconSolid   IconType = \"solid\"   // 24px solid icons\n\tIconMini    IconType = \"mini\"    // 20px solid icons\n\tIconMicro   IconType = \"micro\"   // 16px solid icons\n)\n\nvar iconPaths = map[string]string\x7b"

/-- `providerTemplate` text after the table entries. -/
def providerFooter : String :=
  "\n\x7d\n\n// RenderIcon returns the SVG content for the specified icon with added classes\nfunc RenderIcon(name string, iconType heroicons.IconType, class string) (template.HTML, error) \x7b\n\tsvg, err := getIcon(name, iconType)\n\tif err != nil \x7b\n\t\treturn \"\", err\n\t\x7d\n\n\t// If class is provided, insert it into the SVG\n\tif class != \"\" \x7b\n\t\tif strings.Contains(svg, \"class=\\\"\") \x7b\n\t\t\tsvg = strings.Replace(svg, \"class=\\\"\", fmt.Sprintf(\"class=\\\"%s \", class), 1)\n\t\t\x7d else \x7b\n\t\t\tsvg = strings.Replace(svg, \"<svg \", fmt.Sprintf(\"<svg class=\\\"%s\\\" \", class), 1)\n\t\t\x7d\n\t\x7d\n\n\treturn template.HTML(svg), nil\n\x7d\n\nfunc getMissingIcon() string \x7b\n\tcontent, err := iconFS.ReadFile(\"icons/missing.svg\")\n\tif err != nil \x7b\n\t\treturn \"\"\n\t\x7d\n\treturn string(content)\n\x7d\n\nfunc getIcon(name string, iconType heroicons.IconType) (string, error) \x7b\n\tkey := fmt.Sprintf(\"%s/%s\", iconType, name)\n\tfilename, ok := iconPaths[key]\n\tif !ok \x7b\n\t\tif FailOnError \x7b\n\t\t\treturn \"\", fmt.Errorf(\"icon not found: %s\", key)\n\t\t\x7d\n\t\treturn getMissingIcon(), nil\n\t\x7d\n\n\tfilename = fmt.Sprintf(\"icons/%s\", filename)\n\tcontent, err := iconFS.ReadFile(filename)\n\tif err != nil \x7b\n\t\tif FailOnError \x7b\n\t\t\treturn \"\", fmt.Errorf(\"failed to read icon %s: %w\", filename, err)\n\t\t\x7d\n\t\treturn getMissingIcon(), nil\n\t\x7d\n\n\treturn string(content), nil\n\x7d"

/-- The full output of executing `providerTemplate` on the data struct
`\x7b PackageName, IconPaths, FailOnError \x7d`.  The template never
references `.PackageName`, so the first argument is unused. -/
def providerOutput (PackageName : String) (iconPaths : List (String × String))
    (FailOnError : Bool) : String :=
  providerHeader ++ (if FailOnError then "true" else "false") ++ providerMid ++
  String.join ((sortByKey iconPaths).map
    (fun kv => "\n\t\"" ++ kv.1 ++ "\": \"" ++ kv.2 ++ "\",")) ++
  providerFooter

/-- `Generator.generateProvider`: parse (the constant template always
parses), create `provider.go`, execute the template into it.  Result is
`(error?, files written)`; a failed execute leaves the created
(truncated) file, modelled as empty content. -/
def generateProvider (env : FSEnv) (g : Generator)
    (iconPaths : List (String × String)) :
    Option String × List (String × String) :=
  let path := joinPath g.OutputPath "provider.go"
  if env.createOk path = false then
    (some ("create " ++ path ++ ": operation failed"), [])
  else if env.writeOk path = false then
    (some "template execute: write failed", [(path, "")])
  else
    (none, [(path, providerOutput g.PackageName iconPaths g.FailOnError)])

/-- The body of `Generator.Generate` from the `os.MkdirAll` step on,
run on the (already defaulted) generator value: create the output
directory, write the fallback asset, copy the icons, emit `provider.go`.
The missing report printed at the end is console output only and does
not affect the result. -/
def generateSteps (env : FSEnv) (g : Generator) : GenState × Option String :=
  let iconsPath := joinPath g.OutputPath "icons"
  if env.mkdirOk iconsPath = false then
    (⟨[], [], []⟩, some "failed to create output directory: operation failed")
  else
    let missingIconPath := joinPath iconsPath "missing.svg"
    if env.writeOk missingIconPath = false then
      (⟨[], [], []⟩, some "failed to write missing icon: operation failed")
    else
      let st0 : GenState := ⟨[], [], [(missingIconPath, g.MissingIconSVG)]⟩
      let st := g.Icons.foldl (processIcon env g iconsPath) st0
      match generateProvider env g st.iconPaths with
      | (some e, ws) =>
        ({ st with written := writesInsert st.written ws },
         some ("failed to generate provider: " ++ e))
      | (none, ws) =>
        ({ st with written := writesInsert st.written ws }, none)

/-- `Generator.Generate`.  `g` has a pointer receiver, so the (possibly
defaulted) generator value is part of the result: the triple is
(final generator value, final run state, returned error). -/
def Generate (env : FSEnv) (g0 : Generator) :
    Generator × GenState × Option String :=
  let g := if g0.MissingIconSVG = "" then
    { g0 with MissingIconSVG := DefaultMissingIconSVG } else g0
  (g, generateSteps env g)

/-- The runtime provider obtained by compiling the output of a
`Generate` run: its table is the generated `iconPaths`, its embedded
file system resolves `go:embed` paths (relative to the output package
directory) against the files the run wrote, and its `FailOnError` is
baked from the configuration. -/
def providerOfGen (env : FSEnv) (g : Generator) : ProviderEnv :=
  let res := Generate env g
  { iconPaths := res.2.1.iconPaths,
    readFile := fun p =>
      match mapLookup res.2.1.written (joinPath g.OutputPath p) with
      | some c => Except.ok c
      | none => Except.error ("open " ++ p ++ ": file does not exist"),
    FailOnError := g.FailOnError }

/-- Number of entries of an association list carrying key `k`. -/
def countKey (m : List (String × String)) (k : String) : Nat :=
  (m.filter (fun kv => kv.1 == k)).length

/-- The four valid variants of the external catalog contract. -/
def validTy (t : IconType) : Bool :=
  t == IconOutline || t == IconSolid || t == IconMini || t == IconMicro

/-! ## Lemmas and claim theorems -/

theorem isPrefixOf_eq_append {pat s : List Char} (h : pat.isPrefixOf s = true) :
    s = pat ++ s.drop pat.length := by
  obtain ⟨t, rfl⟩ := List.isPrefixOf_iff_prefix.mp h
  rw [List.drop_left]

theorem splitFirst_eq_some {s pat pre post : List Char}
    (h : splitFirst s pat = some (pre, post)) :
    s = pre ++ pat ++ post ∧ ∀ repl, listReplace1 s pat repl = pre ++ repl ++ post := by
  induction s generalizing pre post with
  | nil =>
    unfold splitFirst at h
    by_cases hp : pat.isEmpty
    · simp [hp] at h
      obtain ⟨rfl, rfl⟩ := h
      have : pat = [] := by simpa [List.isEmpty_iff] using hp
      subst this
      exact ⟨rfl, fun repl => by simp [listReplace1]⟩
    · simp [hp] at h
  | cons c cs ih =>
    unfold splitFirst at h
    by_cases hp : pat.isPrefixOf (c :: cs)
    · simp [hp] at h
      obtain ⟨rfl, rfl⟩ := h
      refine ⟨by simpa using isPrefixOf_eq_append hp, fun repl => ?_⟩
      unfold listReplace1
      simp [hp]
    · simp [hp] at h
      obtain ⟨p1, hsp, rfl⟩ := h
      obtain ⟨hs, hr⟩ := ih hsp
      refine ⟨by simpa using hs, fun repl => ?_⟩
      unfold listReplace1
      simp [hp, hr repl]

theorem splitFirst_eq_none {s pat : List Char} (h : splitFirst s pat = none) :
    ∀ repl, listReplace1 s pat repl = s := by
  induction s with
  | nil =>
    unfold splitFirst at h
    by_cases hp : pat.isEmpty
    · simp [hp] at h
    · intro repl
      unfold listReplace1
      simp [hp]
  | cons c cs ih =>
    unfold splitFirst at h
    by_cases hp : pat.isPrefixOf (c :: cs)
    · simp [hp] at h
    · simp [hp] at h
      intro repl
      unfold listReplace1
      simp [hp, ih h repl]

theorem listContains_eq_isSome (s pat : List Char) :
    listContains s pat = (splitFirst s pat).isSome := by
  induction s with
  | nil =>
    unfold listContains splitFirst
    by_cases hp : pat.isEmpty <;> simp [hp]
  | cons c cs ih =>
    unfold listContains splitFirst
    by_cases hp : pat.isPrefixOf (c :: cs) <;> simp [hp, ih]

theorem splitFirst_min {s pat pre post : List Char}
    (h : splitFirst s pat = some (pre, post)) :
    ∀ pre' post', s = pre' ++ pat ++ post' → pre.length ≤ pre'.length := by
  induction s generalizing pre post with
  | nil =>
    unfold splitFirst at h
    by_cases hp : pat.isEmpty
    · simp [hp] at h
      obtain ⟨rfl, rfl⟩ := h
      intro pre' post' _
      simp
    · simp [hp] at h
  | cons c cs ih =>
    unfold splitFirst at h
    by_cases hp : pat.isPrefixOf (c :: cs)
    · simp [hp] at h
      obtain ⟨rfl, rfl⟩ := h
      intro pre' post' _
      simp
    · simp [hp] at h
      obtain ⟨p1, hsp, rfl⟩ := h
      intro pre' post' hdec
      cases pre' with
      | nil =>
        exfalso
        apply hp
        exact List.isPrefixOf_iff_prefix.mpr ⟨post', by simpa using hdec.symm⟩
      | cons c' pre'' =>
        simp at hdec
        obtain ⟨rfl, hdec⟩ := hdec
        simpa using ih hsp pre'' post' (by simpa [List.append_assoc] using hdec)

theorem goReplace1_data (s old new : String) :
    (goReplace1 s old new).data = listReplace1 s.data old.data new.data := rfl

theorem string_mk_data (s : String) : String.mk s.data = s := rfl

/-- Claim C2: for every markup string and every non-empty class string,
`RenderIcon`'s class injection performs exactly one textual substitution:
if `class="` occurs anywhere in the markup, the class followed by a
single space is prepended inside the quotes at the first (leftmost)
occurrence only; otherwise a new `class="<class>"` attribute is inserted
after the first occurrence of `<svg ` (the opening token followed by a
space); if neither pattern occurs the markup is returned unchanged, and
an empty class string returns the markup unchanged. -/
theorem claim_C2_class_injection (svg cls : String) :
    (cls = "" → injectClass svg cls = svg) ∧
    (cls ≠ "" →
      match splitFirst svg.data "class=\"".data with
      | some pr =>
        (injectClass svg cls).data =
          pr.1 ++ ("class=\"" ++ cls ++ " ").data ++ pr.2 ∧
        svg.data = pr.1 ++ "class=\"".data ++ pr.2 ∧
        (∀ pre' post', svg.data = pre' ++ "class=\"".data ++ post' →
          pr.1.length ≤ pre'.length)
      | none =>
        match splitFirst svg.data "<svg ".data with
        | some pr =>
          (injectClass svg cls).data =
            pr.1 ++ ("<svg class=\"" ++ cls ++ "\" ").data ++ pr.2 ∧
          svg.data = pr.1 ++ "<svg ".data ++ pr.2 ∧
          (∀ pre' post', svg.data = pre' ++ "<svg ".data ++ post' →
            pr.1.length ≤ pre'.length)
        | none => injectClass svg cls = svg) := by
  constructor
  · intro h
    simp [injectClass, h]
  · intro h
    rcases h1 : splitFirst svg.data "class=\"".data with _ | ⟨pre, post⟩
    · rcases h2 : splitFirst svg.data "<svg ".data with _ | ⟨pre, post⟩
      · simp only [h1, h2]
        have hc : goContains svg "class=\"" = false := by
          unfold goContains
          rw [listContains_eq_isSome, h1]
          rfl
        unfold injectClass
        rw [if_neg h, hc]
        simp only [Bool.false_eq_true, if_false]
        have := splitFirst_eq_none h2 ("<svg class=\"" ++ cls ++ "\" ").data
        calc goReplace1 svg "<svg " ("<svg class=\"" ++ cls ++ "\" ")
            = String.mk (listReplace1 svg.data "<svg ".data
                ("<svg class=\"" ++ cls ++ "\" ").data) := rfl
          _ = String.mk svg.data := by rw [this]
          _ = svg := rfl
      · simp only [h1, h2]
        have hc : goContains svg "class=\"" = false := by
          unfold goContains
          rw [listContains_eq_isSome, h1]
          rfl
        obtain ⟨hs, hr⟩ := splitFirst_eq_some h2
        refine ⟨?_, hs, fun pre' post' hd => splitFirst_min h2 pre' post' hd⟩
        unfold injectClass
        rw [if_neg h, hc]
        simp only [Bool.false_eq_true, if_false]
        rw [goReplace1_data, hr]
    · simp only [h1]
      have hc : goContains svg "class=\"" = true := by
        unfold goContains
        rw [listContains_eq_isSome, h1]
        rfl
      obtain ⟨hs, hr⟩ := splitFirst_eq_some h1
      refine ⟨?_, hs, fun pre' post' hd => splitFirst_min h1 pre' post' hd⟩
      unfold injectClass
      rw [if_neg h, hc]
      simp only [if_true]
      rw [goReplace1_data, hr]

/-- Witness for C2 at the markup `<svg class="a">` with class `b`:
the first `class="` occurrence splits the markup as
`<svg ` ++ `class="` ++ `a">`, and injection yields
`<svg ` ++ `class="b ` ++ `a">` = `<svg class="b a">`. -/
theorem claim_C2_class_injection_witness :
    (injectClass "<svg class=\"a\">" "b").data =
      "<svg ".data ++ ("class=\"" ++ "b" ++ " ").data ++ "a\">".data ∧
    "<svg class=\"a\">".data = "<svg ".data ++ "class=\"".data ++ "a\">".data ∧
    (∀ pre' post', "<svg class=\"a\">".data = pre' ++ "class=\"".data ++ post' →
      ("<svg ".data).length ≤ pre'.length) :=
  (claim_C2_class_injection "<svg class=\"a\">" "b").2 (by decide)

/-- Claim C1: for every lookup of a key absent from the generated
provider's table, `getIcon` (and hence the generated `RenderIcon`)
returns a not-found error naming the key and no markup when the baked-in
`FailOnError` flag is true, and returns the embedded fallback markup
with a nil error when the flag is false; on the fallback path it never
returns an error, substituting the empty string when the fallback asset
itself cannot be read. -/
theorem claim_C1_missing_key (p : ProviderEnv) (name : String)
    (iconType : IconType)
    (habs : mapLookup p.iconPaths (iconType ++ "/" ++ name) = none) :
    (p.FailOnError = true →
      getIcon p name iconType =
        ("", some ("icon not found: " ++ (iconType ++ "/" ++ name))) ∧
      ∀ cls, provRenderIcon p name iconType cls =
        ("", some ("icon not found: " ++ (iconType ++ "/" ++ name)))) ∧
    (p.FailOnError = false →
      getIcon p name iconType = (getMissingIcon p, none) ∧
      (∀ fb, p.readFile "icons/missing.svg" = .ok fb →
        getIcon p name iconType = (fb, none)) ∧
      (∀ e, p.readFile "icons/missing.svg" = .error e →
        getIcon p name iconType = ("", none))) := by
  constructor
  · intro hf
    have hg : getIcon p name iconType =
        ("", some ("icon not found: " ++ (iconType ++ "/" ++ name))) := by
      simp [getIcon, habs, hf]
    exact ⟨hg, fun cls => by unfold provRenderIcon; rw [hg]⟩
  · intro hf
    have hg : getIcon p name iconType = (getMissingIcon p, none) := by
      simp [getIcon, habs, hf]
    refine ⟨hg, fun fb hfb => ?_, fun e he => ?_⟩
    · rw [hg]
      unfold getMissingIcon
      rw [hfb]
    · rw [hg]
      unfold getMissingIcon
      rw [he]

/-- Witness for C1: with an empty table, fail-fast true and an
unreadable embedded file system, looking up `outline/home` fails with
the not-found error naming the key. -/
theorem claim_C1_missing_key_witness :
    ((true : Bool) = true →
      getIcon ⟨[], fun _ => Except.error "e", true⟩ "home" "outline" =
        ("", some ("icon not found: " ++ ("outline" ++ "/" ++ "home"))) ∧
      ∀ cls, provRenderIcon ⟨[], fun _ => Except.error "e", true⟩ "home" "outline" cls =
        ("", some ("icon not found: " ++ ("outline" ++ "/" ++ "home")))) ∧
    ((true : Bool) = false →
      getIcon ⟨[], fun _ => Except.error "e", true⟩ "home" "outline" =
        (getMissingIcon ⟨[], fun _ => Except.error "e", true⟩, none) ∧
      (∀ fb, (Except.error "e" : Except String String) = .ok fb →
        getIcon ⟨[], fun _ => Except.error "e", true⟩ "home" "outline" = (fb, none)) ∧
      (∀ e, (Except.error "e" : Except String String) = .error e →
        getIcon ⟨[], fun _ => Except.error "e", true⟩ "home" "outline" = ("", none))) :=
  claim_C1_missing_key ⟨[], fun _ => Except.error "e", true⟩ "home" "outline" (by decide)

/-- Claim C9: calling the library `RenderIcon` before `Initialize` has
been called with a non-nil provider returns an empty markup result and
the "not initialized" error; after `Initialize p` with non-nil `p`,
`RenderIcon` delegates the lookup to `p.GetIcon` and propagates any
error from it unchanged with empty markup (and otherwise injects the
class into the returned markup). -/
theorem claim_C9_initialize_discipline (name : String) (t : IconType)
    (cls : String) (p : IconProvider) :
    RenderIcon (Initialize none) name t cls =
      ("", some "heroicons package not initialized with an IconProvider") ∧
    (∀ svg err, p.GetIcon name t = (svg, some err) →
      RenderIcon (Initialize (some p)) name t cls = ("", some err)) ∧
    (∀ svg, p.GetIcon name t = (svg, none) →
      RenderIcon (Initialize (some p)) name t cls = (injectClass svg cls, none)) := by
  refine ⟨rfl, fun svg err hge => ?_, fun svg hgo => ?_⟩
  · simp only [RenderIcon, Initialize, hge]
  · simp only [RenderIcon, Initialize, hgo]

/-- Witness for C9 at a provider that fails for every icon: the
uninitialized call fails with the "not initialized" error, and the
initialized call propagates the provider's error unchanged. -/
theorem claim_C9_initialize_discipline_witness :
    RenderIcon (Initialize none) "home" "outline" "w-6" =
      ("", some "heroicons package not initialized with an IconProvider") ∧
    (∀ svg err, (IconProvider.mk (fun _ _ => ("", some "boom"))).GetIcon "home" "outline" = (svg, some err) →
      RenderIcon (Initialize (some (IconProvider.mk (fun _ _ => ("", some "boom"))))) "home" "outline" "w-6" =
        ("", some err)) ∧
    (∀ svg, (IconProvider.mk (fun _ _ => ("", some "boom"))).GetIcon "home" "outline" = (svg, none) →
      RenderIcon (Initialize (some (IconProvider.mk (fun _ _ => ("", some "boom"))))) "home" "outline" "w-6" =
        (injectClass svg "w-6", none)) :=
  claim_C9_initialize_discipline "home" "outline" "w-6"
    (IconProvider.mk (fun _ _ => ("", some "boom")))

/-- Claim C4: path resolution is a pure function of variant and name —
for a non-empty source root, `getIconPath` returns exactly
`<sourceRoot>/optimized/<dir>/<name>.svg` with `dir` fixed per variant:
outline→`24/outline`, solid→`24/solid`, mini→`20/solid`,
micro→`16/solid`. -/
theorem claim_C4_path_resolution (g : Generator) (name : String)
    (hroot : g.HeroiconsPath ≠ "") :
    getIconPath g ⟨name, IconOutline⟩ =
      g.HeroiconsPath ++ "/optimized/24/outline/" ++ name ++ ".svg" ∧
    getIconPath g ⟨name, IconSolid⟩ =
      g.HeroiconsPath ++ "/optimized/24/solid/" ++ name ++ ".svg" ∧
    getIconPath g ⟨name, IconMini⟩ =
      g.HeroiconsPath ++ "/optimized/20/solid/" ++ name ++ ".svg" ∧
    getIconPath g ⟨name, IconMicro⟩ =
      g.HeroiconsPath ++ "/optimized/16/solid/" ++ name ++ ".svg" := by
  refine ⟨?_, ?_, ?_, ?_⟩ <;>
  · unfold getIconPath joinPath
    simp only [IconOutline, IconSolid, IconMini, IconMicro]
    norm_num [hroot]
    apply String.ext
    simp [String.data_append]

/-- Witness for C4 at source root `hi` and icon name `home`. -/
theorem claim_C4_path_resolution_witness :
    getIconPath ⟨"hi", "out", "icons", [], false, ""⟩ ⟨"home", IconOutline⟩ =
      "hi" ++ "/optimized/24/outline/" ++ "home" ++ ".svg" ∧
    getIconPath ⟨"hi", "out", "icons", [], false, ""⟩ ⟨"home", IconSolid⟩ =
      "hi" ++ "/optimized/24/solid/" ++ "home" ++ ".svg" ∧
    getIconPath ⟨"hi", "out", "icons", [], false, ""⟩ ⟨"home", IconMini⟩ =
      "hi" ++ "/optimized/20/solid/" ++ "home" ++ ".svg" ∧
    getIconPath ⟨"hi", "out", "icons", [], false, ""⟩ ⟨"home", IconMicro⟩ =
      "hi" ++ "/optimized/16/solid/" ++ "home" ++ ".svg" :=
  claim_C4_path_resolution ⟨"hi", "out", "icons", [], false, ""⟩ "home" (by decide)

theorem generate_fst (env : FSEnv) (g : Generator) :
    (Generate env g).1 =
      (if g.MissingIconSVG = "" then
        { g with MissingIconSVG := DefaultMissingIconSVG } else g) := rfl

/-- Counterexample to C7 as stated: a `Generate` call on a configuration
whose `MissingIconSVG` field is empty modifies that field of the
`Generator` (to the built-in default), so the generator value is not
read-only. -/
theorem claim_C7_counterexample :
    (Generate
        ⟨fun _ => none, fun _ => true, fun _ => true, fun _ => true, fun _ _ => true⟩
        ⟨"hi", "out", "icons", [], false, ""⟩).1.MissingIconSVG =
      DefaultMissingIconSVG ∧
    (⟨"hi", "out", "icons", [], false, ""⟩ : Generator).MissingIconSVG = "" ∧
    DefaultMissingIconSVG ≠ "" := by
  refine ⟨?_, rfl, by decide⟩
  rw [generate_fst]
  rfl

/-- Claim C7 (amended): `Generate` never modifies the `Icons` list nor
any `Generator` field other than `MissingIconSVG`; `MissingIconSVG` is
modified only when it is initially empty, in which case it is set to
`DefaultMissingIconSVG`. -/
theorem claim_C7_frame (env : FSEnv) (g : Generator) :
    (Generate env g).1.HeroiconsPath = g.HeroiconsPath ∧
    (Generate env g).1.OutputPath = g.OutputPath ∧
    (Generate env g).1.PackageName = g.PackageName ∧
    (Generate env g).1.Icons = g.Icons ∧
    (Generate env g).1.FailOnError = g.FailOnError ∧
    (Generate env g).1.MissingIconSVG =
      (if g.MissingIconSVG = "" then DefaultMissingIconSVG
       else g.MissingIconSVG) := by
  rw [generate_fst]
  by_cases hm : g.MissingIconSVG = "" <;> simp [hm]

theorem listContains_append_left {a pat : List Char} (b : List Char)
    (h : listContains a pat = true) : listContains (a ++ b) pat = true := by
  induction a with
  | nil =>
    unfold listContains at h
    have : pat = [] := by simpa [List.isEmpty_iff] using h
    subst this
    cases b with
    | nil => rfl
    | cons c cs =>
      unfold listContains
      simp [List.isPrefixOf]
  | cons c cs ih =>
    unfold listContains at h ⊢
    rcases Bool.or_eq_true_iff.mp h with h1 | h2
    · have h3 : pat <+: (c :: cs) ++ b :=
        (List.isPrefixOf_iff_prefix.mp h1).trans (List.prefix_append _ _)
      have h4 : pat.isPrefixOf ((c :: cs) ++ b) = true :=
        List.isPrefixOf_iff_prefix.mpr h3
      simp only [List.cons_append] at h4 ⊢
      simp [h4]
    · simp [ih h2]

/-- Claim C10: the emitted artifact's package clause is the literal
constant `package icons` for every configuration — the output of the
provider template contains the literal `package icons` line and is
independent of the configured `PackageName`. -/
theorem claim_C10_package_clause (pkg1 pkg2 : String)
    (table : List (String × String)) (fo : Bool) :
    providerOutput pkg1 table fo = providerOutput pkg2 table fo ∧
    listContains (providerOutput pkg1 table fo).data
      "\npackage icons\n".data = true := by
  refine ⟨rfl, ?_⟩
  have hshape : providerOutput pkg1 table fo =
      providerHeader ++ ((if fo then "true" else "false") ++ (providerMid ++
        (String.join ((sortByKey table).map
          (fun kv => "\n\t\"" ++ kv.1 ++ "\": \"" ++ kv.2 ++ "\",")) ++
          providerFooter))) := by
    unfold providerOutput
    rw [String.append_assoc, String.append_assoc, String.append_assoc]
  rw [hshape, String.data_append]
  exact listContains_append_left _ (by decide)

theorem mapLookup_insert_self (m : List (String × String)) (k v : String) :
    mapLookup (mapInsert m k v) k = some v := by
  induction m with
  | nil => simp [mapInsert, mapLookup]
  | cons kv rest ih =>
    obtain ⟨k', v'⟩ := kv
    unfold mapInsert
    by_cases h : k' = k
    · simp [h, mapLookup]
    · simp only [h, if_false]
      unfold mapLookup
      simp [h, ih]

theorem mapLookup_insert_ne (m : List (String × String)) (k v k' : String)
    (h : k ≠ k') : mapLookup (mapInsert m k v) k' = mapLookup m k' := by
  induction m with
  | nil => simp [mapInsert, mapLookup, h]
  | cons kv rest ih =>
    obtain ⟨k'', v''⟩ := kv
    unfold mapInsert
    by_cases h2 : k'' = k
    · subst h2
      simp [mapLookup, h]
    · simp only [h2, if_false]
      unfold mapLookup
      by_cases h3 : k'' = k' <;> simp [h3, ih]

theorem mem_mapInsert {m : List (String × String)} {k v : String}
    {b : String × String} (h : b ∈ mapInsert m k v) : b ∈ m ∨ b = (k, v) := by
  induction m with
  | nil => simpa [mapInsert] using h
  | cons kv rest ih =>
    obtain ⟨k', v'⟩ := kv
    unfold mapInsert at h
    by_cases h2 : k' = k
    · simp only [h2, if_true] at h
      rcases List.mem_cons.mp h with rfl | hm
      · exact Or.inr rfl
      · exact Or.inl (List.mem_cons_of_mem _ hm)
    · simp only [h2, if_false] at h
      rcases List.mem_cons.mp h with rfl | hm
      · exact Or.inl (List.mem_cons_self _ _)
      · rcases ih hm with hm2 | hm2
        · exact Or.inl (List.mem_cons_of_mem _ hm2)
        · exact Or.inr hm2

theorem nodupKeys_insert {m : List (String × String)} (k v : String)
    (h : m.Pairwise (fun a b => a.1 ≠ b.1)) :
    (mapInsert m k v).Pairwise (fun a b => a.1 ≠ b.1) := by
  induction m with
  | nil => simp [mapInsert]
  | cons kv rest ih =>
    obtain ⟨k', v'⟩ := kv
    rw [List.pairwise_cons] at h
    obtain ⟨hhead, htail⟩ := h
    unfold mapInsert
    by_cases h2 : k' = k
    · subst h2
      simp only [if_pos rfl]
      exact List.pairwise_cons.mpr ⟨fun b hb => hhead b hb, htail⟩
    · simp only [h2, if_false]
      refine List.pairwise_cons.mpr ⟨fun b hb => ?_, ih htail⟩
      rcases mem_mapInsert hb with hm | rfl
      · exact hhead b hm
      · exact h2

theorem countKey_eq_zero {m : List (String × String)} {k : String}
    (h : ∀ b ∈ m, b.1 ≠ k) : countKey m k = 0 := by
  unfold countKey
  rw [List.length_eq_zero]
  rw [List.filter_eq_nil_iff]
  intro b hb
  simpa using h b hb

theorem countKey_eq_one_of_nodup {m : List (String × String)} {k v : String}
    (hnd : m.Pairwise (fun a b => a.1 ≠ b.1)) (h : mapLookup m k = some v) :
    countKey m k = 1 := by
  induction m with
  | nil => simp [mapLookup] at h
  | cons kv rest ih =>
    obtain ⟨k', v'⟩ := kv
    rw [List.pairwise_cons] at hnd
    obtain ⟨hhead, htail⟩ := hnd
    unfold mapLookup at h
    by_cases h2 : k' = k
    · subst h2
      have hz : countKey rest k' = 0 :=
        countKey_eq_zero (fun b hb => (hhead b hb).symm)
      unfold countKey at hz ⊢
      simp only [List.filter_cons]
      simp [hz]
    · simp only [h2, if_false] at h
      have := ih htail h
      unfold countKey at this ⊢
      simp only [List.filter_cons]
      simp only [show ((k', v').1 == k) = false by simpa using h2]
      simpa using this

theorem countKey_cons_ne {m : List (String × String)} {k k' v' : String}
    (h : k' ≠ k) : countKey ((k', v') :: m) k = countKey m k := by
  unfold countKey
  simp only [List.filter_cons]
  simp [show ((k', v').1 == k) = false by simpa using h]

theorem validTy_cases {t : IconType} (h : validTy t = true) :
    t = "outline" ∨ t = "solid" ∨ t = "mini" ∨ t = "micro" := by
  unfold validTy IconOutline IconSolid IconMini IconMicro at h
  simp at h
  tauto

theorem sep_inj {t1 t2 : IconType} {c : Char} {r1 r2 : List Char}
    (h1 : validTy t1 = true) (h2 : validTy t2 = true)
    (h : t1.data ++ c :: r1 = t2.data ++ c :: r2) : t1 = t2 ∧ r1 = r2 := by
  rcases validTy_cases h1 with rfl | rfl | rfl | rfl <;>
    rcases validTy_cases h2 with rfl | rfl | rfl | rfl <;>
    simp_all

theorem iconFilename_data (i : IconSet) :
    (iconFilename i).data = i.Ty.data ++ '_' :: (i.Name.data ++ ".svg".data) := by
  unfold iconFilename
  simp [String.data_append]

theorem iconKey_data (i : IconSet) :
    (iconKey i).data = i.Ty.data ++ '/' :: i.Name.data := by
  unfold iconKey
  simp [String.data_append]

theorem iconFilename_inj {i j : IconSet} (hi : validTy i.Ty = true)
    (hj : validTy j.Ty = true) (h : iconFilename i = iconFilename j) :
    i = j := by
  have hd := congrArg String.data h
  rw [iconFilename_data, iconFilename_data] at hd
  obtain ⟨hty, hrest⟩ := sep_inj hi hj hd
  have hname : i.Name = j.Name :=
    String.ext (List.append_cancel_right hrest)
  cases i; cases j
  simp_all

theorem iconKey_inj {i j : IconSet} (hi : validTy i.Ty = true)
    (hj : validTy j.Ty = true) (h : iconKey i = iconKey j) : i = j := by
  have hd := congrArg String.data h
  rw [iconKey_data, iconKey_data] at hd
  obtain ⟨hty, hrest⟩ := sep_inj hi hj hd
  have hname : i.Name = j.Name := String.ext hrest
  cases i; cases j
  simp_all

theorem joinPath_right_inj {a b1 b2 : String}
    (h : joinPath a b1 = joinPath a b2) : b1 = b2 := by
  unfold joinPath at h
  by_cases ha : a = ""
  · simpa [ha] using h
  · simp only [ha, if_false] at h
    have hd := congrArg String.data h
    simp only [String.data_append, List.append_assoc] at hd
    exact String.ext (List.append_cancel_left (List.append_cancel_left hd))

theorem joinPath_icons (o f : String) :
    joinPath (joinPath o "icons") f = joinPath o ("icons/" ++ f) := by
  unfold joinPath
  by_cases ho : o = ""
  · have hne : ("icons" : String) ≠ "" := by decide
    simp only [ho, if_pos rfl, hne, if_false]
    apply String.ext
    simp [String.data_append]
  · simp only [ho, if_false]
    have hne : o ++ "/" ++ "icons" ≠ "" := by
      intro hc
      have := congrArg String.data hc
      simp [String.data_append] at this
    simp only [hne, if_false]
    apply String.ext
    simp [String.data_append]

theorem provider_path_ne_dest (o f : String) :
    joinPath o "provider.go" ≠ joinPath (joinPath o "icons") f := by
  rw [joinPath_icons]
  intro h
  have := joinPath_right_inj h
  have hd := congrArg String.data this
  simp [String.data_append] at hd

theorem processIcon_establish (env : FSEnv) (g : Generator) (iconsPath : String)
    (st : GenState) (icon : IconSet) (content : String)
    (hsrc : env.files (getIconPath g icon) = some content)
    (hcreate : env.createOk (joinPath iconsPath (iconFilename icon)) = true)
    (hcopy : env.copyOk (getIconPath g icon)
      (joinPath iconsPath (iconFilename icon)) = true) :
    (processIcon env g iconsPath st icon).missing = st.missing ∧
    mapLookup (processIcon env g iconsPath st icon).written
      (joinPath iconsPath (iconFilename icon)) = some content ∧
    mapLookup (processIcon env g iconsPath st icon).iconPaths (iconKey icon) =
      some (iconFilename icon) := by
  simp only [processIcon, copyIcon, hsrc, hcreate, hcopy]
  simp [writesInsert, mapLookup_insert_self]

theorem processIcon_preserve (env : FSEnv) (g : Generator) (iconsPath : String)
    (st : GenState) (i icon : IconSet) (content fname : String)
    (hvi : validTy i.Ty = true) (hvic : validTy icon.Ty = true)
    (hne : i ≠ icon)
    (hw : mapLookup st.written (joinPath iconsPath (iconFilename icon)) = some content)
    (ht : mapLookup st.iconPaths (iconKey icon) = some fname) :
    mapLookup (processIcon env g iconsPath st i).written
      (joinPath iconsPath (iconFilename icon)) = some content ∧
    mapLookup (processIcon env g iconsPath st i).iconPaths (iconKey icon) =
      some fname := by
  have hfn : iconFilename i ≠ iconFilename icon :=
    fun h => hne (iconFilename_inj hvi hvic h)
  have hdp : joinPath iconsPath (iconFilename i) ≠
      joinPath iconsPath (iconFilename icon) :=
    fun h => hfn (joinPath_right_inj h)
  have hk : iconKey i ≠ iconKey icon := fun h => hne (iconKey_inj hvi hvic h)
  simp only [processIcon, copyIcon]
  rcases henv : env.files (getIconPath g i) with _ | c
  · simp [henv, writesInsert, hw, ht]
  · cases hcr : env.createOk (joinPath iconsPath (iconFilename i)) with
    | false => simp [henv, hcr, writesInsert, hw, ht]
    | true =>
      cases hcp : env.copyOk (getIconPath g i)
          (joinPath iconsPath (iconFilename i)) with
      | false =>
        simp [henv, hcr, hcp, writesInsert,
          mapLookup_insert_ne _ _ _ _ hdp, hw, ht]
      | true =>
        simp [henv, hcr, hcp, writesInsert, mapLookup_insert_ne _ _ _ _ hdp,
          mapLookup_insert_ne _ _ _ _ hk, hw, ht]

theorem foldIcons_preserve (env : FSEnv) (g : Generator) (iconsPath : String)
    (icon : IconSet) (content fname : String) (l : List IconSet)
    (st : GenState)
    (hval : ∀ i ∈ l, validTy i.Ty = true)
    (hvic : validTy icon.Ty = true)
    (hstable : ∀ i ∈ l, i = icon →
      env.files (getIconPath g icon) = some content ∧
      env.createOk (joinPath iconsPath (iconFilename icon)) = true ∧
      env.copyOk (getIconPath g icon)
        (joinPath iconsPath (iconFilename icon)) = true ∧
      fname = iconFilename icon)
    (hw : mapLookup st.written (joinPath iconsPath (iconFilename icon)) = some content)
    (ht : mapLookup st.iconPaths (iconKey icon) = some fname) :
    mapLookup (l.foldl (processIcon env g iconsPath) st).written
      (joinPath iconsPath (iconFilename icon)) = some content ∧
    mapLookup (l.foldl (processIcon env g iconsPath) st).iconPaths (iconKey icon) =
      some fname := by
  induction l generalizing st with
  | nil => exact ⟨hw, ht⟩
  | cons i rest ih =>
    rw [List.foldl_cons]
    by_cases hieq : i = icon
    · subst hieq
      obtain ⟨hsrc, hcreate, hcopy, hfn⟩ :=
        hstable i (List.mem_cons_self _ _) rfl
      obtain ⟨_, hw2, ht2⟩ :=
        processIcon_establish env g iconsPath st i content hsrc hcreate hcopy
      exact ih (processIcon env g iconsPath st i)
        (fun j hj => hval j (List.mem_cons_of_mem _ hj))
        (fun j hj hje => hstable j (List.mem_cons_of_mem _ hj) hje)
        hw2 (hfn.symm ▸ ht2)
    · obtain ⟨hw2, ht2⟩ := processIcon_preserve env g iconsPath st i icon
        content fname (hval i (List.mem_cons_self _ _)) hvic hieq hw ht
      exact ih (processIcon env g iconsPath st i)
        (fun j hj => hval j (List.mem_cons_of_mem _ hj))
        (fun j hj hje => hstable j (List.mem_cons_of_mem _ hj) hje) hw2 ht2

theorem foldIcons_establish (env : FSEnv) (g : Generator) (iconsPath : String)
    (icon : IconSet) (content : String) (l : List IconSet) (st : GenState)
    (hval : ∀ i ∈ l, validTy i.Ty = true)
    (hvic : validTy icon.Ty = true)
    (hmem : icon ∈ l)
    (hsrc : env.files (getIconPath g icon) = some content)
    (hcreate : env.createOk (joinPath iconsPath (iconFilename icon)) = true)
    (hcopy : env.copyOk (getIconPath g icon)
      (joinPath iconsPath (iconFilename icon)) = true) :
    mapLookup (l.foldl (processIcon env g iconsPath) st).written
      (joinPath iconsPath (iconFilename icon)) = some content ∧
    mapLookup (l.foldl (processIcon env g iconsPath) st).iconPaths (iconKey icon) =
      some (iconFilename icon) := by
  induction l generalizing st with
  | nil => cases hmem
  | cons i rest ih =>
    rw [List.foldl_cons]
    by_cases hieq : i = icon
    · subst hieq
      obtain ⟨_, hw2, ht2⟩ :=
        processIcon_establish env g iconsPath st i content hsrc hcreate hcopy
      exact foldIcons_preserve env g iconsPath i content (iconFilename i) rest _
        (fun j hj => hval j (List.mem_cons_of_mem _ hj))
        (hval i (List.mem_cons_self _ _))
        (fun j _ hje => by subst hje; exact ⟨hsrc, hcreate, hcopy, rfl⟩) hw2 ht2
    · rcases List.mem_cons.mp hmem with rfl | hmem2
      · exact absurd rfl hieq
      · exact ih (processIcon env g iconsPath st i)
          (fun j hj => hval j (List.mem_cons_of_mem _ hj)) hmem2

theorem processIcon_missing_sub (env : FSEnv) (g : Generator)
    (iconsPath : String) (st : GenState) (i : IconSet) {x : String}
    (hx : x ∈ st.missing) :
    x ∈ (processIcon env g iconsPath st i).missing := by
  simp only [processIcon]
  rcases copyIcon env (getIconPath g i) (joinPath iconsPath (iconFilename i)) with
    ⟨_ | e, ws⟩
  · simpa using hx
  · simp only []
    exact List.mem_append_left _ hx

theorem foldIcons_missing_sub (env : FSEnv) (g : Generator)
    (iconsPath : String) (l : List IconSet) (st : GenState) {x : String}
    (hx : x ∈ st.missing) :
    x ∈ (l.foldl (processIcon env g iconsPath) st).missing := by
  induction l generalizing st with
  | nil => exact hx
  | cons i rest ih =>
    rw [List.foldl_cons]
    exact ih _ (processIcon_missing_sub env g iconsPath st i hx)

theorem foldIcons_missing_mem (env : FSEnv) (g : Generator)
    (iconsPath : String) (icon : IconSet) (l : List IconSet) (st : GenState)
    (hmem : icon ∈ l)
    (hfail : (copyIcon env (getIconPath g icon)
      (joinPath iconsPath (iconFilename icon))).1.isSome = true) :
    iconKey icon ∈ (l.foldl (processIcon env g iconsPath) st).missing := by
  induction l generalizing st with
  | nil => cases hmem
  | cons i rest ih =>
    rw [List.foldl_cons]
    by_cases hieq : i = icon
    · subst hieq
      apply foldIcons_missing_sub
      simp only [processIcon]
      rcases hcp : copyIcon env (getIconPath g i)
          (joinPath iconsPath (iconFilename i)) with ⟨_ | e, ws⟩
      · rw [hcp] at hfail
        simp at hfail
      · simp only []
        exact List.mem_append_right _ (List.mem_singleton.mpr rfl)
    · rcases List.mem_cons.mp hmem with rfl | hmem2
      · exact absurd rfl hieq
      · exact ih (processIcon env g iconsPath st i) hmem2

theorem processIcon_table_nomem (env : FSEnv) (g : Generator)
    (iconsPath : String) (st : GenState) (i : IconSet) (k : String)
    (hk : iconKey i = k →
      (copyIcon env (getIconPath g i)
        (joinPath iconsPath (iconFilename i))).1.isSome = true) :
    mapLookup (processIcon env g iconsPath st i).iconPaths k =
      mapLookup st.iconPaths k := by
  simp only [processIcon]
  rcases hcp : copyIcon env (getIconPath g i)
      (joinPath iconsPath (iconFilename i)) with ⟨_ | e, ws⟩
  · simp only []
    by_cases hkk : iconKey i = k
    · have := hk hkk
      rw [hcp] at this
      simp at this
    · exact mapLookup_insert_ne _ _ _ _ hkk
  · simp only []

theorem foldIcons_table_nomem (env : FSEnv) (g : Generator)
    (iconsPath : String) (k : String) (l : List IconSet) (st : GenState)
    (hall : ∀ i ∈ l, iconKey i = k →
      (copyIcon env (getIconPath g i)
        (joinPath iconsPath (iconFilename i))).1.isSome = true) :
    mapLookup (l.foldl (processIcon env g iconsPath) st).iconPaths k =
      mapLookup st.iconPaths k := by
  induction l generalizing st with
  | nil => rfl
  | cons i rest ih =>
    rw [List.foldl_cons]
    rw [ih (processIcon env g iconsPath st i)
      (fun j hj => hall j (List.mem_cons_of_mem _ hj))]
    exact processIcon_table_nomem env g iconsPath st i k
      (hall i (List.mem_cons_self _ _))

theorem processIcon_nodup (env : FSEnv) (g : Generator) (iconsPath : String)
    (st : GenState) (i : IconSet)
    (h : st.iconPaths.Pairwise (fun a b => a.1 ≠ b.1)) :
    (processIcon env g iconsPath st i).iconPaths.Pairwise
      (fun a b => a.1 ≠ b.1) := by
  simp only [processIcon]
  rcases copyIcon env (getIconPath g i) (joinPath iconsPath (iconFilename i)) with
    ⟨_ | e, ws⟩
  · simp only []
    exact nodupKeys_insert _ _ h
  · simpa using h

theorem foldIcons_nodup (env : FSEnv) (g : Generator) (iconsPath : String)
    (l : List IconSet) (st : GenState)
    (h : st.iconPaths.Pairwise (fun a b => a.1 ≠ b.1)) :
    ((l.foldl (processIcon env g iconsPath) st).iconPaths).Pairwise
      (fun a b => a.1 ≠ b.1) := by
  induction l generalizing st with
  | nil => exact h
  | cons i rest ih =>
    rw [List.foldl_cons]
    exact ih _ (processIcon_nodup env g iconsPath st i h)

theorem generateSteps_err (env : FSEnv) (g : Generator) :
    (generateSteps env g).2 = none ↔
      (env.mkdirOk (joinPath g.OutputPath "icons") = true ∧
       env.writeOk (joinPath (joinPath g.OutputPath "icons") "missing.svg") = true ∧
       env.createOk (joinPath g.OutputPath "provider.go") = true ∧
       env.writeOk (joinPath g.OutputPath "provider.go") = true) := by
  cases h1 : env.mkdirOk (joinPath g.OutputPath "icons") <;>
    cases h2 : env.writeOk (joinPath (joinPath g.OutputPath "icons") "missing.svg") <;>
      cases h3 : env.createOk (joinPath g.OutputPath "provider.go") <;>
        cases h4 : env.writeOk (joinPath g.OutputPath "provider.go") <;>
          simp [generateSteps, generateProvider, h1, h2, h3, h4]

theorem generateSteps_write_fail (env : FSEnv) (g : Generator)
    (h1 : env.mkdirOk (joinPath g.OutputPath "icons") = true)
    (h2 : env.writeOk (joinPath (joinPath g.OutputPath "icons") "missing.svg") = false) :
    generateSteps env g =
      (⟨[], [], []⟩, some "failed to write missing icon: operation failed") := by
  simp [generateSteps, h1, h2]

theorem generateSteps_state (env : FSEnv) (g : Generator)
    (h1 : env.mkdirOk (joinPath g.OutputPath "icons") = true)
    (h2 : env.writeOk (joinPath (joinPath g.OutputPath "icons") "missing.svg") = true) :
    (generateSteps env g).1.missing =
      (g.Icons.foldl (processIcon env g (joinPath g.OutputPath "icons"))
        ⟨[], [], [(joinPath (joinPath g.OutputPath "icons") "missing.svg",
          g.MissingIconSVG)]⟩).missing ∧
    (generateSteps env g).1.iconPaths =
      (g.Icons.foldl (processIcon env g (joinPath g.OutputPath "icons"))
        ⟨[], [], [(joinPath (joinPath g.OutputPath "icons") "missing.svg",
          g.MissingIconSVG)]⟩).iconPaths := by
  simp only [generateSteps, h1, h2]
  rcases generateProvider env g
      ((g.Icons.foldl (processIcon env g (joinPath g.OutputPath "icons"))
        ⟨[], [], [(joinPath (joinPath g.OutputPath "icons") "missing.svg",
          g.MissingIconSVG)]⟩).iconPaths) with ⟨_ | e, ws⟩ <;> simp

theorem generateSteps_ok_written (env : FSEnv) (g : Generator)
    (h1 : env.mkdirOk (joinPath g.OutputPath "icons") = true)
    (h2 : env.writeOk (joinPath (joinPath g.OutputPath "icons") "missing.svg") = true)
    (h3 : env.createOk (joinPath g.OutputPath "provider.go") = true)
    (h4 : env.writeOk (joinPath g.OutputPath "provider.go") = true) :
    (generateSteps env g).1.written =
      mapInsert
        (g.Icons.foldl (processIcon env g (joinPath g.OutputPath "icons"))
          ⟨[], [], [(joinPath (joinPath g.OutputPath "icons") "missing.svg",
            g.MissingIconSVG)]⟩).written
        (joinPath g.OutputPath "provider.go")
        (providerOutput g.PackageName
          (g.Icons.foldl (processIcon env g (joinPath g.OutputPath "icons"))
            ⟨[], [], [(joinPath (joinPath g.OutputPath "icons") "missing.svg",
              g.MissingIconSVG)]⟩).iconPaths g.FailOnError) := by
  simp only [generateSteps, generateProvider, h1, h2, h3, h4]
  simp [writesInsert]

theorem generate_snd (env : FSEnv) (g : Generator) :
    (Generate env g).2 = generateSteps env
      (if g.MissingIconSVG = "" then
        { g with MissingIconSVG := DefaultMissingIconSVG } else g) := rfl

/-- Claim C5: `Generate` returns nil exactly when output-directory
creation, the fallback-asset write, and the generated-artifact
creation/write all succeed; when the fallback-asset write fails,
`Generate` returns an error immediately and attempts nothing further
(no icon copied, no table entry, no missing entry, no file written). -/
theorem claim_C5_fatal_io_errors (env : FSEnv) (g : Generator) :
    ((Generate env g).2.2 = none ↔
      (env.mkdirOk (joinPath g.OutputPath "icons") = true ∧
       env.writeOk (joinPath (joinPath g.OutputPath "icons") "missing.svg") = true ∧
       env.createOk (joinPath g.OutputPath "provider.go") = true ∧
       env.writeOk (joinPath g.OutputPath "provider.go") = true)) ∧
    (env.mkdirOk (joinPath g.OutputPath "icons") = true →
     env.writeOk (joinPath (joinPath g.OutputPath "icons") "missing.svg") = false →
      (Generate env g).2.2.isSome = true ∧
      (Generate env g).2.1.written = [] ∧
      (Generate env g).2.1.iconPaths = [] ∧
      (Generate env g).2.1.missing = []) := by
  constructor
  · by_cases hm : g.MissingIconSVG = ""
    · rw [generate_snd, if_pos hm]
      exact generateSteps_err env _
    · rw [generate_snd, if_neg hm]
      exact generateSteps_err env g
  · intro h1 h2
    by_cases hm : g.MissingIconSVG = ""
    · rw [generate_snd, if_pos hm,
        generateSteps_write_fail env
          { g with MissingIconSVG := DefaultMissingIconSVG } h1 h2]
      simp
    · rw [generate_snd, if_neg hm,
        generateSteps_write_fail env g h1 h2]
      simp

/-- Witness for C5: with directory creation succeeding but the fallback
write failing, `Generate` errors out with empty state; the error-free
characterization also holds at this input. -/
theorem claim_C5_fatal_io_errors_witness :
    ((Generate
        ⟨fun _ => none, fun _ => true,
          fun p => !(p == "out/icons/missing.svg"), fun _ => true,
          fun _ _ => true⟩
        ⟨"hi", "out", "icons", [], false, "x"⟩).2.2 = none ↔
      ((fun (_ : String) => true) (joinPath "out" "icons") = true ∧
       (fun p => !(p == "out/icons/missing.svg"))
         (joinPath (joinPath "out" "icons") "missing.svg") = true ∧
       (fun (_ : String) => true) (joinPath "out" "provider.go") = true ∧
       (fun p => !(p == "out/icons/missing.svg"))
         (joinPath "out" "provider.go") = true)) ∧
    ((Generate
        ⟨fun _ => none, fun _ => true,
          fun p => !(p == "out/icons/missing.svg"), fun _ => true,
          fun _ _ => true⟩
        ⟨"hi", "out", "icons", [], false, "x"⟩).2.2.isSome = true ∧
     (Generate
        ⟨fun _ => none, fun _ => true,
          fun p => !(p == "out/icons/missing.svg"), fun _ => true,
          fun _ _ => true⟩
        ⟨"hi", "out", "icons", [], false, "x"⟩).2.1.written = [] ∧
     (Generate
        ⟨fun _ => none, fun _ => true,
          fun p => !(p == "out/icons/missing.svg"), fun _ => true,
          fun _ _ => true⟩
        ⟨"hi", "out", "icons", [], false, "x"⟩).2.1.iconPaths = [] ∧
     (Generate
        ⟨fun _ => none, fun _ => true,
          fun p => !(p == "out/icons/missing.svg"), fun _ => true,
          fun _ _ => true⟩
        ⟨"hi", "out", "icons", [], false, "x"⟩).2.1.missing = []) :=
  ⟨(claim_C5_fatal_io_errors _ _).1,
   (claim_C5_fatal_io_errors _ _).2 (by decide) (by decide)⟩

theorem copy_failure_core (env : FSEnv) (g : Generator)
    (icon : IconSet) (hmem : icon ∈ g.Icons)
    (hfail : (copyIcon env (getIconPath g icon)
      (joinPath (joinPath g.OutputPath "icons") (iconFilename icon))).1.isSome = true)
    (h1 : env.mkdirOk (joinPath g.OutputPath "icons") = true)
    (h2 : env.writeOk (joinPath (joinPath g.OutputPath "icons") "missing.svg") = true) :
    iconKey icon ∈ (generateSteps env g).1.missing ∧
    ((∀ i ∈ g.Icons, iconKey i = iconKey icon →
        (copyIcon env (getIconPath g i)
          (joinPath (joinPath g.OutputPath "icons") (iconFilename i))).1.isSome = true) →
      mapLookup (generateSteps env g).1.iconPaths (iconKey icon) = none) ∧
    (env.createOk (joinPath g.OutputPath "provider.go") = true →
     env.writeOk (joinPath g.OutputPath "provider.go") = true →
      (generateSteps env g).2 = none) := by
  refine ⟨?_, ?_, ?_⟩
  · rw [(generateSteps_state env g h1 h2).1]
    exact foldIcons_missing_mem env _ _ icon _ _ hmem hfail
  · intro hall
    rw [(generateSteps_state env g h1 h2).2]
    rw [foldIcons_table_nomem env _ _ _ _ _ hall]
    rfl
  · intro h3 h4
    exact (generateSteps_err env _).mpr ⟨h1, h2, h3, h4⟩

/-- Claim C3: a request whose copy fails contributes its composite key
to the missing list; when every request carrying that key fails, the key
is absent from the lookup table; and a copy failure alone never causes
`Generate` to return an error — if the directory creation, fallback
write and artifact emission succeed, the run returns nil even though
copies failed. -/
theorem claim_C3_copy_failure_nonfatal (env : FSEnv) (g : Generator)
    (icon : IconSet) (hmem : icon ∈ g.Icons)
    (hfail : (copyIcon env (getIconPath g icon)
      (joinPath (joinPath g.OutputPath "icons") (iconFilename icon))).1.isSome = true)
    (h1 : env.mkdirOk (joinPath g.OutputPath "icons") = true)
    (h2 : env.writeOk (joinPath (joinPath g.OutputPath "icons") "missing.svg") = true) :
    iconKey icon ∈ (Generate env g).2.1.missing ∧
    ((∀ i ∈ g.Icons, iconKey i = iconKey icon →
        (copyIcon env (getIconPath g i)
          (joinPath (joinPath g.OutputPath "icons") (iconFilename i))).1.isSome = true) →
      mapLookup (Generate env g).2.1.iconPaths (iconKey icon) = none) ∧
    (env.createOk (joinPath g.OutputPath "provider.go") = true →
     env.writeOk (joinPath g.OutputPath "provider.go") = true →
      (Generate env g).2.2 = none) := by
  by_cases hm : g.MissingIconSVG = ""
  · rw [generate_snd, if_pos hm]
    exact copy_failure_core env _ icon hmem hfail h1 h2
  · rw [generate_snd, if_neg hm]
    exact copy_failure_core env g icon hmem hfail h1 h2

/-- Witness for C3: one request whose source file does not exist — its
key `outline/gone` lands in the missing list, the table stays empty, and
the run returns nil. -/
theorem claim_C3_copy_failure_nonfatal_witness :
    iconKey ⟨"gone", "outline"⟩ ∈
      (Generate
        ⟨fun _ => none, fun _ => true, fun _ => true, fun _ => true,
          fun _ _ => true⟩
        ⟨"hi", "out", "icons", [⟨"gone", "outline"⟩], false, "x"⟩).2.1.missing ∧
    ((∀ i ∈ ([⟨"gone", "outline"⟩] : List IconSet),
        iconKey i = iconKey ⟨"gone", "outline"⟩ →
        (copyIcon
          ⟨fun _ => none, fun _ => true, fun _ => true, fun _ => true,
            fun _ _ => true⟩
          (getIconPath ⟨"hi", "out", "icons", [⟨"gone", "outline"⟩], false, "x"⟩ i)
          (joinPath (joinPath "out" "icons") (iconFilename i))).1.isSome = true) →
      mapLookup
        (Generate
          ⟨fun _ => none, fun _ => true, fun _ => true, fun _ => true,
            fun _ _ => true⟩
          ⟨"hi", "out", "icons", [⟨"gone", "outline"⟩], false, "x"⟩).2.1.iconPaths
        (iconKey ⟨"gone", "outline"⟩) = none) ∧
    ((fun (_ : String) => true) (joinPath "out" "provider.go") = true →
     (fun (_ : String) => true) (joinPath "out" "provider.go") = true →
      (Generate
        ⟨fun _ => none, fun _ => true, fun _ => true, fun _ => true,
          fun _ _ => true⟩
        ⟨"hi", "out", "icons", [⟨"gone", "outline"⟩], false, "x"⟩).2.2 = none) :=
  claim_C3_copy_failure_nonfatal _ _ ⟨"gone", "outline"⟩
    (by decide) (by decide) (by decide) (by decide)

theorem last_duplicate_core (env : FSEnv) (g : Generator) (icon : IconSet)
    (content : String)
    (hval : ∀ i ∈ g.Icons, validTy i.Ty = true)
    (hmem : icon ∈ g.Icons)
    (hsrc : env.files (getIconPath g icon) = some content)
    (hcreate : env.createOk
      (joinPath (joinPath g.OutputPath "icons") (iconFilename icon)) = true)
    (hcopy : env.copyOk (getIconPath g icon)
      (joinPath (joinPath g.OutputPath "icons") (iconFilename icon)) = true)
    (h1 : env.mkdirOk (joinPath g.OutputPath "icons") = true)
    (h2 : env.writeOk (joinPath (joinPath g.OutputPath "icons") "missing.svg") = true) :
    countKey (generateSteps env g).1.iconPaths (iconKey icon) = 1 ∧
    mapLookup (generateSteps env g).1.iconPaths (iconKey icon) =
      some (iconFilename icon) := by
  have hvic := hval icon hmem
  have hfold := foldIcons_establish env g (joinPath g.OutputPath "icons") icon
    content g.Icons
    ⟨[], [], [(joinPath (joinPath g.OutputPath "icons") "missing.svg",
      g.MissingIconSVG)]⟩ hval hvic hmem hsrc hcreate hcopy
  have hnd := foldIcons_nodup env g (joinPath g.OutputPath "icons") g.Icons
    ⟨[], [], [(joinPath (joinPath g.OutputPath "icons") "missing.svg",
      g.MissingIconSVG)]⟩ (by simp)
  rw [(generateSteps_state env g h1 h2).2]
  exact ⟨countKey_eq_one_of_nodup hnd hfold.2, hfold.2⟩

/-- Claim C8: for a request list holding two (or more) requests with the
identical (name, variant) pair whose copies succeed, the final lookup
table contains exactly one entry for that composite key, and its value
is the destination filename produced by the last such request (each such
request produces the same filename `variant_name.svg`, which the later
processing re-registers over the earlier one). -/
theorem claim_C8_duplicate_keys (env : FSEnv) (g : Generator)
    (icon : IconSet) (pre mid post : List IconSet) (content : String)
    (hicons : g.Icons = pre ++ icon :: (mid ++ icon :: post))
    (hval : ∀ i ∈ g.Icons, validTy i.Ty = true)
    (hsrc : env.files (getIconPath g icon) = some content)
    (hcreate : env.createOk
      (joinPath (joinPath g.OutputPath "icons") (iconFilename icon)) = true)
    (hcopy : env.copyOk (getIconPath g icon)
      (joinPath (joinPath g.OutputPath "icons") (iconFilename icon)) = true)
    (h1 : env.mkdirOk (joinPath g.OutputPath "icons") = true)
    (h2 : env.writeOk (joinPath (joinPath g.OutputPath "icons") "missing.svg") = true) :
    countKey (Generate env g).2.1.iconPaths (iconKey icon) = 1 ∧
    mapLookup (Generate env g).2.1.iconPaths (iconKey icon) =
      some (iconFilename icon) := by
  have hmem : icon ∈ g.Icons := by
    rw [hicons]
    simp
  by_cases hm : g.MissingIconSVG = ""
  · rw [generate_snd, if_pos hm]
    exact last_duplicate_core env _ icon content hval hmem hsrc hcreate hcopy h1 h2
  · rw [generate_snd, if_neg hm]
    exact last_duplicate_core env g icon content hval hmem hsrc hcreate hcopy h1 h2

/-- Witness for C8: two identical `outline/home` requests, both copies
succeeding — the final table holds exactly one entry for the key, with
the filename `outline_home.svg`. -/
theorem claim_C8_duplicate_keys_witness :
    countKey
      (Generate
        ⟨fun p => if p = "hi/optimized/24/outline/home.svg"
            then some "<svg>H</svg>" else none,
          fun _ => true, fun _ => true, fun _ => true, fun _ _ => true⟩
        ⟨"hi", "out", "icons",
          [⟨"home", "outline"⟩, ⟨"home", "outline"⟩], false, "x"⟩).2.1.iconPaths
      (iconKey ⟨"home", "outline"⟩) = 1 ∧
    mapLookup
      (Generate
        ⟨fun p => if p = "hi/optimized/24/outline/home.svg"
            then some "<svg>H</svg>" else none,
          fun _ => true, fun _ => true, fun _ => true, fun _ _ => true⟩
        ⟨"hi", "out", "icons",
          [⟨"home", "outline"⟩, ⟨"home", "outline"⟩], false, "x"⟩).2.1.iconPaths
      (iconKey ⟨"home", "outline"⟩) =
      some (iconFilename ⟨"home", "outline"⟩) :=
  claim_C8_duplicate_keys _ _ ⟨"home", "outline"⟩ [] [] [] "<svg>H</svg>"
    (by decide) (by decide) (by decide) (by decide) (by decide) (by decide)
    (by decide)

theorem roundtrip_core (env : FSEnv) (g : Generator) (icon : IconSet)
    (content : String)
    (hval : ∀ i ∈ g.Icons, validTy i.Ty = true)
    (hmem : icon ∈ g.Icons)
    (hsrc : env.files (getIconPath g icon) = some content)
    (hcreate : env.createOk
      (joinPath (joinPath g.OutputPath "icons") (iconFilename icon)) = true)
    (hcopy : env.copyOk (getIconPath g icon)
      (joinPath (joinPath g.OutputPath "icons") (iconFilename icon)) = true)
    (h1 : env.mkdirOk (joinPath g.OutputPath "icons") = true)
    (h2 : env.writeOk (joinPath (joinPath g.OutputPath "icons") "missing.svg") = true)
    (h3 : env.createOk (joinPath g.OutputPath "provider.go") = true)
    (h4 : env.writeOk (joinPath g.OutputPath "provider.go") = true) :
    mapLookup (generateSteps env g).1.iconPaths (iconKey icon) =
      some (iconFilename icon) ∧
    mapLookup (generateSteps env g).1.written
      (joinPath (joinPath g.OutputPath "icons") (iconFilename icon)) =
      some content := by
  have hvic := hval icon hmem
  have hfold := foldIcons_establish env g (joinPath g.OutputPath "icons") icon
    content g.Icons
    ⟨[], [], [(joinPath (joinPath g.OutputPath "icons") "missing.svg",
      g.MissingIconSVG)]⟩ hval hvic hmem hsrc hcreate hcopy
  constructor
  · rw [(generateSteps_state env g h1 h2).2]
    exact hfold.2
  · rw [generateSteps_ok_written env g h1 h2 h3 h4]
    rw [mapLookup_insert_ne _ _ _ _
      (provider_path_ne_dest g.OutputPath (iconFilename icon))]
    exact hfold.1

/-- Claim C6 (round-trip): for a request whose source file exists and
whose copy succeeds (in a run whose global steps succeed, over requests
with valid variants), generation registers the key `variant/name`
mapped to the filename `variant_name.svg`, the copied file's bytes equal
the source file's bytes, and rendering that key with an empty class from
the provider built out of the generated artifacts returns markup
byte-identical to the original source content. -/
theorem claim_C6_roundtrip (env : FSEnv) (g : Generator) (icon : IconSet)
    (content : String)
    (hval : ∀ i ∈ g.Icons, validTy i.Ty = true)
    (hmem : icon ∈ g.Icons)
    (hsrc : env.files (getIconPath g icon) = some content)
    (hcreate : env.createOk
      (joinPath (joinPath g.OutputPath "icons") (iconFilename icon)) = true)
    (hcopy : env.copyOk (getIconPath g icon)
      (joinPath (joinPath g.OutputPath "icons") (iconFilename icon)) = true)
    (h1 : env.mkdirOk (joinPath g.OutputPath "icons") = true)
    (h2 : env.writeOk (joinPath (joinPath g.OutputPath "icons") "missing.svg") = true)
    (h3 : env.createOk (joinPath g.OutputPath "provider.go") = true)
    (h4 : env.writeOk (joinPath g.OutputPath "provider.go") = true) :
    mapLookup (Generate env g).2.1.iconPaths (iconKey icon) =
      some (iconFilename icon) ∧
    mapLookup (Generate env g).2.1.written
      (joinPath (joinPath g.OutputPath "icons") (iconFilename icon)) =
      some content ∧
    provRenderIcon (providerOfGen env g) icon.Name icon.Ty "" =
      (content, none) := by
  have hcore : mapLookup (Generate env g).2.1.iconPaths (iconKey icon) =
      some (iconFilename icon) ∧
      mapLookup (Generate env g).2.1.written
        (joinPath (joinPath g.OutputPath "icons") (iconFilename icon)) =
        some content := by
    by_cases hm : g.MissingIconSVG = ""
    · rw [generate_snd, if_pos hm]
      exact roundtrip_core env _ icon content hval hmem hsrc hcreate hcopy
        h1 h2 h3 h4
    · rw [generate_snd, if_neg hm]
      exact roundtrip_core env g icon content hval hmem hsrc hcreate hcopy
        h1 h2 h3 h4
  obtain ⟨ht, hw⟩ := hcore
  refine ⟨ht, hw, ?_⟩
  have hkey : mapLookup (providerOfGen env g).iconPaths
      (icon.Ty ++ "/" ++ icon.Name) = some (iconFilename icon) := ht
  have hrf : (providerOfGen env g).readFile ("icons/" ++ iconFilename icon) =
      Except.ok content := by
    show (match mapLookup (Generate env g).2.1.written
        (joinPath g.OutputPath ("icons/" ++ iconFilename icon)) with
      | some c => Except.ok c
      | none => Except.error ("open " ++ ("icons/" ++ iconFilename icon) ++
          ": file does not exist")) = Except.ok content
    rw [show joinPath g.OutputPath ("icons/" ++ iconFilename icon) =
        joinPath (joinPath g.OutputPath "icons") (iconFilename icon) from
      (joinPath_icons _ _).symm]
    rw [hw]
  have hgi : getIcon (providerOfGen env g) icon.Name icon.Ty =
      (content, none) := by
    simp only [getIcon, hkey, hrf]
  simp [provRenderIcon, hgi, injectClass]

/-- Witness for C6: one `outline/home` request over a catalog holding
`hi/optimized/24/outline/home.svg` with content `<svg>H</svg>` — the
table maps `outline/home` to `outline_home.svg`, the copied file holds
`<svg>H</svg>`, and rendering `outline/home` with an empty class
returns `<svg>H</svg>` with a nil error. -/
theorem claim_C6_roundtrip_witness :
    mapLookup
      (Generate
        ⟨fun p => if p = "hi/optimized/24/outline/home.svg"
            then some "<svg>H</svg>" else none,
          fun _ => true, fun _ => true, fun _ => true, fun _ _ => true⟩
        ⟨"hi", "out", "icons", [⟨"home", "outline"⟩], false, "x"⟩).2.1.iconPaths
      (iconKey ⟨"home", "outline"⟩) = some (iconFilename ⟨"home", "outline"⟩) ∧
    mapLookup
      (Generate
        ⟨fun p => if p = "hi/optimized/24/outline/home.svg"
            then some "<svg>H</svg>" else none,
          fun _ => true, fun _ => true, fun _ => true, fun _ _ => true⟩
        ⟨"hi", "out", "icons", [⟨"home", "outline"⟩], false, "x"⟩).2.1.written
      (joinPath (joinPath "out" "icons") (iconFilename ⟨"home", "outline"⟩)) =
      some "<svg>H</svg>" ∧
    provRenderIcon
      (providerOfGen
        ⟨fun p => if p = "hi/optimized/24/outline/home.svg"
            then some "<svg>H</svg>" else none,
          fun _ => true, fun _ => true, fun _ => true, fun _ _ => true⟩
        ⟨"hi", "out", "icons", [⟨"home", "outline"⟩], false, "x"⟩)
      "home" "outline" "" = ("<svg>H</svg>", none) :=
  claim_C6_roundtrip _ _ ⟨"home", "outline"⟩ "<svg>H</svg>"
    (by decide) (by decide) (by decide) (by decide) (by decide) (by decide)
    (by decide) (by decide) (by decide)
